import Mathlib

/-!
Verification of the navigation/permission core of the ontology-marketplace
client: the fragment codec and router logic of `src/App.tsx`, the window-key
derivation of `src/views/DashboardView.tsx`, and the permission cache of
`src/services/userService.ts`, shallowly embedded as executable Lean
definitions.
-/

namespace OntologyMarketplace

/-! ## Fragment codec (`parseHash` in `src/App.tsx`)

JavaScript's `String.prototype.split` on a one-character separator is modelled
on the character list: `splitCharAux` returns the segment before the first
separator together with the remaining segments, so `splitChar` always returns
at least one (possibly empty) segment, exactly as `"".split('/')` returns
`[""]` in JavaScript. -/

def splitCharAux (c : Char) : List Char → List Char × List (List Char)
  | [] => ([], [])
  | x :: xs =>
    let r := splitCharAux c xs
    if x = c then ([], r.1 :: r.2) else (x :: r.1, r.2)

def splitChar (c : Char) (l : List Char) : List (List Char) :=
  (splitCharAux c l).1 :: (splitCharAux c l).2

/-- JavaScript `hash.split('/')` as a list of Lean strings. -/
def jsSplit (c : Char) (s : String) : List String :=
  (splitChar c s.data).map String.mk

/-- The characters that the `.` of a JavaScript regular expression (without the
`s` flag) does not match: line terminators. -/
def isLineTerm (ch : Char) : Bool :=
  ch = Char.ofNat 10 || ch = Char.ofNat 13 ||
    ch = Char.ofNat 0x2028 || ch = Char.ofNat 0x2029

/-- The regular expression `^([^?]+)\?id=(.+)$` of `parseHash` (the "legacy
format" branch), on character lists: the group before the first `?` must be
non-empty, the text after that `?` must start with `id=`, and the rest (the
captured identifier) must be non-empty and free of line terminators. -/
def legacyMatch (l : List Char) : Option (List Char × List Char) :=
  let before := l.takeWhile (fun ch => ch ≠ '?')
  match l.drop before.length with
  | '?' :: rest =>
    if before = [] then none
    else
      match rest with
      | 'i' :: 'd' :: '=' :: idPart =>
        if idPart ≠ [] ∧ idPart.all (fun ch => ¬ isLineTerm ch) then
          some (before, idPart)
        else none
      | _ => none
  | _ => none

/-- The decoded intent of a fragment: the TypeScript return type
`{ view: ViewType | null; id: string | null }` of `parseHash`. -/
structure ParsedHash where
  view : Option String
  id : Option String
deriving DecidableEq, Repr

/-- The trailing "legacy format" branch of `parseHash`
(`src/App.tsx:61-70`): control reaches it only after the slash-split branches
failed to return. -/
def legacyBranch (hashContent : String) : ParsedHash :=
  match legacyMatch hashContent.data with
  | some (v, i) =>
    if String.mk i ≠ "" ∧
        (String.mk v = "ontology-details" ∨ String.mk v = "edit-ontology") then
      ⟨some (String.mk v), some (String.mk i)⟩
    else ⟨none, none⟩
  | none => ⟨none, none⟩

/-- The body of `parseHash` after stripping the leading `#`
(`src/App.tsx:38-70`): first the `viewId/entityId` two-segment form, then the
single-segment forms (known bare view names, otherwise an opaque token treated
as an entity identifier), and finally the legacy `viewId?id=entityId` regular
expression. -/
def parseContent (hashContent : String) : ParsedHash :=
  match jsSplit '/' hashContent with
  | [view, id] =>
    if id ≠ "" ∧ (view = "ontology-details" ∨ view = "edit-ontology") then
      ⟨some view, some id⟩
    else legacyBranch hashContent
  | [part] =>
    if part = "dashboard" ∨ part = "new-ontology" then ⟨some part, none⟩
    else if part = "ontology-details" ∨ part = "edit-ontology" then
      ⟨some part, none⟩
    else if part ≠ "" then ⟨some "ontology-details", some part⟩
    else legacyBranch hashContent
  | _ => legacyBranch hashContent

/-- `parseHash` of `src/App.tsx:32-71`: an empty hash yields no target,
otherwise the leading `#` is stripped (`hash.substring(1)`) and the content is
parsed. -/
def parseHash (hash : String) : ParsedHash :=
  if hash = "" then ⟨none, none⟩
  else parseContent (String.mk (hash.data.drop 1))

/-! ## Router state and operations (`src/App.tsx`)

JavaScript truthiness of the parsed fields is embedded explicitly: a `null`
field and an empty string both fail an `if (x)` test, so each guard checks
both the `Option` constructor and emptiness. -/

/-- The router-visible part of the `App` component state: `currentView` and
`selectedOntologyId` (`src/App.tsx:23-24`). Both `useState` initializers are
shown: view `"dashboard"`, no selected ontology. -/
structure RouterState where
  currentView : String
  selectedOntologyId : Option String
deriving DecidableEq, Repr

def initialRouter : RouterState := ⟨"dashboard", none⟩

/-- Startup fragment capture (`src/App.tsx:80-85`): `if (parsedHash.view)`
sets the view, `if (parsedHash.id)` sets the selected ontology. -/
def captureFragment (parsed : ParsedHash) (s : RouterState) : RouterState :=
  let s1 := match parsed.view with
    | some v => if v = "" then s else { s with currentView := v }
    | none => s
  match parsed.id with
  | some i => if i = "" then s1 else { s1 with selectedOntologyId := some i }
  | none => s1

/-- The signed-in branch of the `onAuthStateChange` callback
(`src/App.tsx:90-92`): `setCurrentView(prev => prev === 'login' ?
(parsedHash.view || 'dashboard') : prev)`. -/
def authCallbackSignedIn (parsed : ParsedHash) (s : RouterState) : RouterState :=
  if s.currentView = "login" then
    { s with currentView :=
        match parsed.view with
        | some v => if v = "" then "dashboard" else v
        | none => "dashboard" }
  else s

/-- The synchronous already-authenticated check of the initialization effect
(`src/App.tsx:111-117`): when a user is present and no hash view was parsed,
fall back to the dashboard. -/
def syncCheckSignedIn (parsed : ParsedHash) (s : RouterState) : RouterState :=
  match parsed.view with
  | some v => if v = "" then { s with currentView := "dashboard" } else s
  | none => { s with currentView := "dashboard" }

/-- The whole initialization effect for an already-authenticated user
(`src/App.tsx:73-133`): the fragment is captured first; the auth callback and
the synchronous user check both run afterwards, in either order (the flag
picks which of the two asynchronous resolutions happens first). -/
def initRun (hash : String) (callbackFirst : Bool) : RouterState :=
  let parsed := parseHash hash
  let s0 := captureFragment parsed initialRouter
  if callbackFirst then syncCheckSignedIn parsed (authCallbackSignedIn parsed s0)
  else authCallbackSignedIn parsed (syncCheckSignedIn parsed s0)

/-- The shared else-branch of `handleViewChange` (`src/App.tsx:207-212`):
when no (truthy) ontology id is supplied, the id is cleared unless the view is
entity-scoped, and the bare view name is written to the fragment. -/
def handleViewChangeBare (view : String) (s0 : RouterState) : RouterState × String :=
  (if view ≠ "ontology-details" ∧ view ≠ "edit-ontology" then
     { s0 with selectedOntologyId := none }
   else s0, view)

/-- `handleViewChange` (`src/App.tsx:200-216`), returning the updated router
state and the fragment written to `window.location.hash`. The `if (ontologyId)`
truthiness test sends both `undefined` and the empty string to the
else-branch; a truthy id always writes `ontology-details/<id>` whatever the
requested view is. -/
def handleViewChange (view : String) (ontologyId : Option String)
    (s : RouterState) : RouterState × String :=
  let s0 := { s with currentView := view }
  match ontologyId with
  | some oid =>
    if oid = "" then handleViewChangeBare view s0
    else ({ s0 with selectedOntologyId := some oid }, "ontology-details/" ++ oid)
  | none => handleViewChangeBare view s0

/-- A decoded navigation intent: a view together with an optional entity
identifier. -/
structure NavigationTarget where
  view : String
  entityId : Option String
deriving DecidableEq, Repr

/-- The fragment an explicit in-app navigation to `t` writes. -/
def encodeNav (t : NavigationTarget) : String :=
  (handleViewChange t.view t.entityId initialRouter).2

/-- Decoding a fragment `f` is parsing the hash `#f`. -/
def decodeFragment (f : String) : ParsedHash :=
  parseHash ("#" ++ f)

/-- The window key derived for an ontology card or its View button in
`src/views/DashboardView.tsx:342,424`: `` `ontology-${ontology.id}` ``. -/
def windowKey (ontologyId : String) : String :=
  "ontology-" ++ ontologyId

/-! ## Permission cache (`src/services/userService.ts`)

The singleton `UserService` is embedded as explicit state passing. The two
asynchronous suspension points are split into separate steps: `refresh` is the
synchronous prefix of `UserService.refresh` (join an in-flight promise or
start a new one, which is the only place a network request is issued), and
`resolveFetch` is the continuation that runs when `fetchUserAccount` settles
(`none` models the caught failure path, which the source turns into `null`).
`JavaScript `Set`s are modelled by membership in the underlying list. -/

structure Permissions where
  can_edit_ontologies : List String
  can_delete_ontologies : List String
deriving DecidableEq, Repr

structure UserAccount where
  name : String
  email : String
  image_url : Option String
  is_public : Bool
  permissions : Permissions
deriving DecidableEq, Repr

structure PermissionsResponse where
  can_edit_ontologies : Option (List String)
  can_delete_ontologies : Option (List String)
deriving DecidableEq, Repr

/-- The raw `/get_user` response; `none` fields model absent/non-array
values. -/
structure UserAccountResponse where
  name : Option String
  email : Option String
  image_url : Option String
  is_public : Option Bool
  permissions : Option PermissionsResponse
deriving DecidableEq, Repr

/-- The normalization of `fetchUserAccount`
(`src/services/userService.ts:48-61`): `response.name || ''`,
`response.is_public ?? false`, and the `Array.isArray` guards on the two
permission lists. -/
def normalizeAccount (r : UserAccountResponse) : UserAccount :=
  { name := r.name.getD ""
    email := r.email.getD ""
    image_url := r.image_url
    is_public := r.is_public.getD false
    permissions :=
      { can_edit_ontologies :=
          (r.permissions.bind (fun p => p.can_edit_ontologies)).getD []
        can_delete_ontologies :=
          (r.permissions.bind (fun p => p.can_delete_ontologies)).getD [] } }

/-- The private fields of the `UserService` singleton
(`src/services/userService.ts:31-36`), plus two bookkeeping fields of the
embedding: `nextPromiseId` names promises so that distinct in-flight fetches
are distinguishable, and `fetchCount` counts the network requests issued. -/
structure UserServiceState where
  userAccount : Option UserAccount
  editableIds : List String
  deletableIds : List String
  lastFetched : Int
  fetchPromise : Option Nat
  nextPromiseId : Nat
  fetchCount : Nat
deriving DecidableEq, Repr

def initialService : UserServiceState :=
  { userAccount := none, editableIds := [], deletableIds := [],
    lastFetched := 0, fetchPromise := none, nextPromiseId := 0,
    fetchCount := 0 }

/-- `CACHE_TTL_MS = 5 * 60 * 1000` (`src/services/userService.ts:35`). -/
def CACHE_TTL_MS : Int := 5 * 60 * 1000

/-- The synchronous part of `UserService.refresh`
(`src/services/userService.ts:73-98`): if `fetchPromise` is set the caller
gets that promise and nothing else happens; otherwise a new fetch is issued
and stored as the in-flight promise. Returns the promise the caller awaits. -/
def refresh (s : UserServiceState) : UserServiceState × Nat :=
  match s.fetchPromise with
  | some p => (s, p)
  | none =>
    ({ s with fetchPromise := some s.nextPromiseId,
              nextPromiseId := s.nextPromiseId + 1,
              fetchCount := s.fetchCount + 1 }, s.nextPromiseId)

/-- The continuation of the in-flight closure
(`src/services/userService.ts:79-95`) once `fetchUserAccount` settles at time
`now`: on a response, replace the account, both id sets and the timestamp; on
the caught-failure `null` (`none`), leave everything untouched and deliver the
last good account (or `null`). The `finally` clears `fetchPromise` in both
cases. Returns the value delivered to every awaiter of the promise. -/
def resolveFetch (s : UserServiceState) (response : Option UserAccountResponse)
    (now : Int) : UserServiceState × Option UserAccount :=
  match response with
  | some r =>
    let account := normalizeAccount r
    ({ s with userAccount := some account,
              editableIds := account.permissions.can_edit_ontologies,
              deletableIds := account.permissions.can_delete_ontologies,
              lastFetched := now,
              fetchPromise := none }, some account)
  | none => ({ s with fetchPromise := none }, s.userAccount)

/-- The characters JavaScript's `String.prototype.trim` strips: WhiteSpace
(tab, vertical tab, form feed, space, no-break space, byte-order mark, and
Unicode space separators, of which the common ones are listed) and
LineTerminator characters. -/
def isJsWhitespace (c : Char) : Bool :=
  c = ' ' || c = Char.ofNat 9 || c = Char.ofNat 10 || c = Char.ofNat 11 ||
    c = Char.ofNat 12 || c = Char.ofNat 13 || c = Char.ofNat 0xA0 ||
    c = Char.ofNat 0xFEFF || c = Char.ofNat 0x2028 || c = Char.ofNat 0x2029

/-- JavaScript `ontologyId.trim()`: strip leading and trailing whitespace. -/
def jsTrim (s : String) : String :=
  String.mk (((s.data.dropWhile isJsWhitespace).reverse.dropWhile
    isJsWhitespace).reverse)

/-- `UserService.canEdit` (`src/services/userService.ts:110-114`): falsy ids
answer `false`, otherwise the trimmed id is looked up in the editable set. -/
def canEdit (s : UserServiceState) (ontologyId : String) : Bool :=
  if ontologyId = "" then false else s.editableIds.contains (jsTrim ontologyId)

/-- `UserService.canDelete` (`src/services/userService.ts:119-123`). -/
def canDelete (s : UserServiceState) (ontologyId : String) : Bool :=
  if ontologyId = "" then false
  else s.deletableIds.contains (jsTrim ontologyId)

/-- `UserService.clear` (`src/services/userService.ts:128-134`). -/
def clear (s : UserServiceState) : UserServiceState :=
  { s with userAccount := none, editableIds := [], deletableIds := [],
           lastFetched := 0, fetchPromise := none }

/-- `UserService.isStale` (`src/services/userService.ts:139-141`):
`Date.now() - this.lastFetched > this.CACHE_TTL_MS`. -/
def isStale (s : UserServiceState) (now : Int) : Bool :=
  now - s.lastFetched > CACHE_TTL_MS

/-- The states of the `UserService` singleton reachable from construction by
its operations. -/
inductive Reachable : UserServiceState → Prop
  | init : Reachable initialService
  | refreshStep {s} : Reachable s → Reachable (refresh s).1
  | resolveStep {s} (response : Option UserAccountResponse) (now : Int) :
      Reachable s → Reachable (resolveFetch s response now).1
  | clearStep {s} : Reachable s → Reachable (clear s)

/-! ## Helper lemmas -/

lemma splitCharAux_eq_of_not_mem (c : Char) (l : List Char) (h : c ∉ l) :
    splitCharAux c l = (l, []) := by
  induction l with
  | nil => rfl
  | cons x xs ih =>
    rw [List.mem_cons, not_or] at h
    simp only [splitCharAux, ih h.2]
    rw [if_neg (fun hx => h.1 hx.symm)]

lemma splitCharAux_append_of_not_mem (c : Char) (l1 l2 : List Char)
    (h : c ∉ l1) :
    splitCharAux c (l1 ++ l2) =
      (l1 ++ (splitCharAux c l2).1, (splitCharAux c l2).2) := by
  induction l1 with
  | nil => simp
  | cons x xs ih =>
    rw [List.mem_cons, not_or] at h
    have hxc : ¬ x = c := fun hx => h.1 hx.symm
    simp only [List.cons_append, splitCharAux, hxc, if_false, ih h.2,
      List.append_eq]

lemma jsSplit_entity (id : String) (h : '/' ∉ id.data) :
    jsSplit '/' ("ontology-details/" ++ id) = ["ontology-details", id] := by
  have hd : ("ontology-details/" ++ id).data
      = "ontology-details".data ++ ('/' :: id.data) := by
    rw [String.data_append]
    have : "ontology-details/".data = "ontology-details".data ++ ['/'] := by
      decide
    rw [this, List.append_assoc]
    rfl
  unfold jsSplit splitChar
  rw [hd, splitCharAux_append_of_not_mem _ _ _ (by decide)]
  simp only [splitCharAux, if_pos rfl, splitCharAux_eq_of_not_mem _ _ h]
  simp

lemma parseHash_hashed (f : String) : parseHash ("#" ++ f) = parseContent f := by
  have hne : ("#" ++ f) ≠ "" := by
    intro hcontra
    have := congrArg String.data hcontra
    rw [String.data_append] at this
    simp at this
  unfold parseHash
  rw [if_neg hne]
  congr 1

/-- The shape constraints every result of `parseHash` satisfies: any returned
view is one of the four known view names, and a non-null id comes with a
non-empty identifier and an entity-scoped view. -/
def GoodParse (p : ParsedHash) : Prop :=
  (∀ v, p.view = some v →
    (v = "ontology-details" ∨ v = "edit-ontology" ∨ v = "dashboard" ∨
      v = "new-ontology")) ∧
  (∀ i, p.id = some i →
    i ≠ "" ∧ (p.view = some "ontology-details" ∨ p.view = some "edit-ontology"))

lemma goodParse_none : GoodParse ⟨none, none⟩ := by
  constructor <;> intro x hx <;> cases hx

lemma goodParse_legacyBranch (content : String) :
    GoodParse (legacyBranch content) := by
  unfold legacyBranch
  split
  · split
    · next hcond =>
      refine ⟨fun v0 hv0 => ?_, fun i0 hi0 => ?_⟩
      · cases hv0
        rcases hcond.2 with hv | hv <;> rw [hv] <;> tauto
      · cases hi0
        rcases hcond.2 with hv | hv <;> rw [hv] <;> exact ⟨hcond.1, by tauto⟩
    · exact goodParse_none
  · exact goodParse_none

lemma goodParse_parseContent (content : String) :
    GoodParse (parseContent content) := by
  unfold parseContent
  split
  · split
    · next hcond =>
      refine ⟨fun v0 hv0 => ?_, fun i0 hi0 => ?_⟩
      · cases hv0
        tauto
      · cases hi0
        rcases hcond.2 with hv | hv <;> rw [hv] <;> exact ⟨hcond.1, by tauto⟩
    · exact goodParse_legacyBranch content
  · split
    · next hcond =>
      refine ⟨fun v0 hv0 => ?_, fun i0 hi0 => ?_⟩
      · cases hv0; tauto
      · cases hi0
    · split
      · next hcond =>
        refine ⟨fun v0 hv0 => ?_, fun i0 hi0 => ?_⟩
        · cases hv0; tauto
        · cases hi0
      · split
        · next hcond =>
          refine ⟨fun v0 hv0 => ?_, fun i0 hi0 => ?_⟩
          · cases hv0; tauto
          · cases hi0; exact ⟨hcond, by tauto⟩
        · exact goodParse_legacyBranch content
  · exact goodParse_legacyBranch content

lemma goodParse_parseHash (hash : String) : GoodParse (parseHash hash) := by
  unfold parseHash
  split
  · exact goodParse_none
  · exact goodParse_parseContent _

lemma reachable_no_account_sets {s : UserServiceState} (hr : Reachable s)
    (h : s.userAccount = none) :
    s.editableIds = [] ∧ s.deletableIds = [] := by
  induction hr with
  | init => exact ⟨rfl, rfl⟩
  | refreshStep hs ih =>
    rename_i s0
    cases hfp : s0.fetchPromise <;>
      simp only [refresh, hfp] at h ⊢ <;> exact ih h
  | resolveStep response now hs ih =>
    cases response with
    | some r => simp [resolveFetch] at h
    | none =>
      simp only [resolveFetch] at h ⊢
      exact ih h
  | clearStep hs ih => exact ⟨rfl, rfl⟩

lemma string_append_left_cancel {s a b : String} (h : s ++ a = s ++ b) :
    a = b := by
  apply String.ext
  have hd := congrArg String.data h
  rw [String.data_append, String.data_append] at hd
  exact List.append_cancel_left hd

/-! ## Claim theorems -/

/-- C1: the claim says the legacy fragment `ontology-details?id=xyz` decodes
to the same target as `ontology-details/xyz`, view `ontology-details` with
entity id `xyz`. The code disagrees: the single-token fallthrough of
`parseHash` fires before the legacy branch and returns the whole string as
the entity id, so `parseHash "#ontology-details?id=xyz"` yields id
`"ontology-details?id=xyz"` while `parseHash "#ontology-details/xyz"` yields
id `"xyz"`. This theorem evaluates both sides on the failing input. -/
theorem C1_legacy_decode_eval :
    parseHash "#ontology-details?id=xyz" =
      ⟨some "ontology-details", some "ontology-details?id=xyz"⟩ ∧
    parseHash "#ontology-details/xyz" =
      ⟨some "ontology-details", some "xyz"⟩ ∧
    parseHash "#ontology-details?id=xyz" ≠
      parseHash "#ontology-details/xyz" := by decide

/-- C2: if the fragment present at process start decodes to a target and the
user is already authenticated, the router state after initialization and the
identity callback have both run equals that target, whichever of the two
resolves first. -/
theorem C2_startup_deep_link (hash v : String) (i : Option String)
    (hdec : parseHash hash = ⟨some v, i⟩) (callbackFirst : Bool) :
    initRun hash callbackFirst = ⟨v, i⟩ := by
  have hg := goodParse_parseHash hash
  rw [hdec] at hg
  have hv := hg.1 v rfl
  have hvne : v ≠ "" := by
    rcases hv with h | h | h | h <;> subst h <;> decide
  have hvnl : v ≠ "login" := by
    rcases hv with h | h | h | h <;> subst h <;> decide
  unfold initRun
  rw [hdec]
  cases i with
  | none =>
    cases callbackFirst <;>
      simp [captureFragment, authCallbackSignedIn, syncCheckSignedIn,
        initialRouter, hvne, hvnl]
  | some i0 =>
    have hi0 : i0 ≠ "" := (hg.2 i0 rfl).1
    cases callbackFirst <;>
      simp [captureFragment, authCallbackSignedIn, syncCheckSignedIn,
        initialRouter, hvne, hvnl, hi0]

/-- C2 witness: the startup fragment `ontology-details/abc-123` with an
already-authenticated user ends in view `ontology-details` with entity id
`abc-123`, in both resolution orders. -/
theorem C2_startup_deep_link_witness :
    initRun "#ontology-details/abc-123" true =
      ⟨"ontology-details", some "abc-123"⟩ ∧
    initRun "#ontology-details/abc-123" false =
      ⟨"ontology-details", some "abc-123"⟩ :=
  ⟨C2_startup_deep_link "#ontology-details/abc-123" "ontology-details"
      (some "abc-123") (by decide) true,
    C2_startup_deep_link "#ontology-details/abc-123" "ontology-details"
      (some "abc-123") (by decide) false⟩

/-- C3 counterexample: the round-trip claim fails for the constructible
entity-scoped target `⟨edit-ontology, x⟩`: `handleViewChange` writes the
fragment `ontology-details/x` for it, which decodes to view
`ontology-details`, not `edit-ontology`. -/
theorem C3_roundtrip_cex :
    encodeNav ⟨"edit-ontology", some "x"⟩ = "ontology-details/x" ∧
    decodeFragment (encodeNav ⟨"edit-ontology", some "x"⟩) ≠
      ⟨some "edit-ontology", some "x"⟩ := by decide

/-- C3 (amended): `decode(encode(t)) = t` holds for entity-scoped targets
whose view is `ontology-details` and whose entity id is non-empty and free of
`/`, and for the parameterless targets `dashboard` and `new-ontology`; it
fails for `edit-ontology` entity-scoped targets and for other parameterless
views. -/
theorem C3_roundtrip_amended :
    (∀ id : String, id ≠ "" → '/' ∉ id.data →
      decodeFragment (encodeNav ⟨"ontology-details", some id⟩) =
        ⟨some "ontology-details", some id⟩) ∧
    decodeFragment (encodeNav ⟨"dashboard", none⟩) = ⟨some "dashboard", none⟩ ∧
    decodeFragment (encodeNav ⟨"new-ontology", none⟩) =
      ⟨some "new-ontology", none⟩ := by
  refine ⟨fun id hne hslash => ?_, by decide, by decide⟩
  have henc : encodeNav ⟨"ontology-details", some id⟩ =
      "ontology-details/" ++ id := by
    unfold encodeNav handleViewChange
    simp [hne]
  rw [henc]
  unfold decodeFragment
  rw [parseHash_hashed]
  unfold parseContent
  rw [jsSplit_entity id hslash]
  simp [hne]

/-- C3 witness: the round-trip at the concrete entity id `abc`. -/
theorem C3_roundtrip_amended_witness :
    decodeFragment (encodeNav ⟨"ontology-details", some "abc"⟩) =
      ⟨some "ontology-details", some "abc"⟩ :=
  C3_roundtrip_amended.1 "abc" (by decide) (by decide)

/-- C4: single-flight refresh. From a state with no fetch in flight, a first
`refresh()` issues exactly one network request and stores the in-flight
promise; a second `refresh()` before resolution returns the very same promise,
changes nothing, and issues no further request. -/
theorem C4_single_flight (s : UserServiceState) (h : s.fetchPromise = none) :
    (refresh (refresh s).1).2 = (refresh s).2 ∧
    (refresh (refresh s).1).1 = (refresh s).1 ∧
    (refresh s).1.fetchCount = s.fetchCount + 1 ∧
    (refresh s).1.fetchPromise = some (refresh s).2 := by
  simp [refresh, h]

/-- C4 witness: two back-to-back `refresh()` calls from the freshly
constructed service share one promise and one network request. -/
theorem C4_single_flight_witness :
    (refresh (refresh initialService).1).2 = (refresh initialService).2 ∧
    (refresh (refresh initialService).1).1 = (refresh initialService).1 ∧
    (refresh initialService).1.fetchCount = initialService.fetchCount + 1 ∧
    (refresh initialService).1.fetchPromise =
      some (refresh initialService).2 :=
  C4_single_flight initialService rfl

/-- C5: fail-soft refresh. When the underlying fetch fails (the caught-error
`null` of `fetchUserAccount`), the resolution leaves the stored account, both
id sets and the timestamp untouched, delivers the last good account (or
`null`) to the caller, and every `canEdit`/`canDelete` answer is unchanged.
The failure path returns normally, so no exception reaches the caller. -/
theorem C5_fail_soft (s : UserServiceState) (now : Int) :
    (resolveFetch s none now).1.userAccount = s.userAccount ∧
    (resolveFetch s none now).1.editableIds = s.editableIds ∧
    (resolveFetch s none now).1.deletableIds = s.deletableIds ∧
    (resolveFetch s none now).1.lastFetched = s.lastFetched ∧
    (resolveFetch s none now).2 = s.userAccount ∧
    (∀ id, canEdit (resolveFetch s none now).1 id = canEdit s id ∧
      canDelete (resolveFetch s none now).1 id = canDelete s id) := by
  simp [resolveFetch, canEdit, canDelete]

/-- C6 counterexample: the router-state invariant fails in a reachable state.
Capturing the bare startup fragment `#ontology-details` puts the router in the
entity-scoped view `ontology-details` with a null `selectedOntologyId`, so
"selectedEntityId is non-null iff currentView is entity-scoped" is false
there. -/
theorem C6_entity_scope_cex :
    ¬ ((captureFragment (parseHash "#ontology-details")
          initialRouter).selectedOntologyId ≠ none ↔
        ((captureFragment (parseHash "#ontology-details")
            initialRouter).currentView = "ontology-details" ∨
          (captureFragment (parseHash "#ontology-details")
            initialRouter).currentView = "edit-ontology")) := by decide

/-- C6 (amended): one direction survives: fragment decoding only ever pairs a
non-null entity id with an entity-scoped view, and an explicit in-app
navigation to a non-entity-scoped view without an id clears
`selectedOntologyId`. The full iff fails in reachable states (bare
`#ontology-details` fragment). -/
theorem C6_entity_scope_amended :
    (∀ hash v i, parseHash hash = ⟨some v, some i⟩ →
      (v = "ontology-details" ∨ v = "edit-ontology")) ∧
    (∀ (s : RouterState) v, v ≠ "ontology-details" → v ≠ "edit-ontology" →
      ((handleViewChange v none s).1).selectedOntologyId = none) := by
  constructor
  · intro hash v i hdec
    have hg := goodParse_parseHash hash
    rw [hdec] at hg
    simpa using (hg.2 i rfl).2
  · intro s v h1 h2
    simp [handleViewChange, handleViewChangeBare, h1, h2]

/-- C6 amended witness: the two statements at the concrete fragment
`#ontology-details/abc` and the concrete navigation to `dashboard`. -/
theorem C6_entity_scope_amended_witness :
    ("ontology-details" = "ontology-details" ∨
      "ontology-details" = "edit-ontology") ∧
    ((handleViewChange "dashboard" none
      initialRouter).1).selectedOntologyId = none :=
  ⟨C6_entity_scope_amended.1 "#ontology-details/abc" "ontology-details" "abc"
      (by decide),
    C6_entity_scope_amended.2 initialRouter "dashboard" (by decide)
      (by decide)⟩

/-- C7: distinct entity identifiers always derive distinct window keys, but
the empty identifier is not rejected: the code silently derives the shared
key `ontology-` from it, contradicting the required guard. -/
theorem C7_window_key (a b : String) (hne : a ≠ b) :
    windowKey a ≠ windowKey b ∧ windowKey "" = "ontology-" := by
  unfold windowKey
  exact ⟨fun h => hne (string_append_left_cancel h), rfl⟩

/-- C7 witness: the keys of identifiers `A` and `B` differ and the empty
identifier yields the bare shared key. -/
theorem C7_window_key_witness :
    windowKey "A" ≠ windowKey "B" ∧ windowKey "" = "ontology-" :=
  C7_window_key "A" "B" (by decide)

/-- C8 counterexample: a whitespace-only identifier does not always answer
`false`. After a successful refresh whose `can_edit_ontologies` list contains
the empty string, `canEdit " "` trims the identifier to `""`, finds it in the
set, and returns `true`. -/
theorem C8_whitespace_cex :
    canEdit (resolveFetch initialService
      (some ⟨some "u", some "u@example.com", none, some false,
        some ⟨some [""], some []⟩⟩) 0).1 " " = true := by decide

/-- C8 (amended): `canEdit`/`canDelete` are pure reads of the stored sets.
They answer `false` for the empty identifier, `false` in every reachable
state with no snapshot, and `false` for a whitespace-only identifier unless
the snapshot's set contains the empty string (the trimmed identifier is
looked up as `""`). -/
theorem C8_cache_reads_amended :
    (∀ s : UserServiceState, canEdit s "" = false ∧ canDelete s "" = false) ∧
    (∀ (s : UserServiceState) (id : String), Reachable s →
      s.userAccount = none → canEdit s id = false ∧ canDelete s id = false) ∧
    (∀ (s : UserServiceState) (id : String), jsTrim id = "" →
      s.editableIds.contains "" = false → canEdit s id = false) ∧
    (∀ (s : UserServiceState) (id : String), jsTrim id = "" →
      s.deletableIds.contains "" = false → canDelete s id = false) := by
  refine ⟨fun s => ⟨rfl, rfl⟩, fun s id hr hnone => ?_,
    fun s id ht hc => ?_, fun s id ht hc => ?_⟩
  · obtain ⟨he, hd⟩ := reachable_no_account_sets hr hnone
    constructor <;> simp [canEdit, canDelete, he, hd]
  · by_cases hid : id = ""
    · simp [canEdit, hid]
    · unfold canEdit
      rw [if_neg hid, ht]
      exact hc
  · by_cases hid : id = ""
    · simp [canDelete, hid]
    · unfold canDelete
      rw [if_neg hid, ht]
      exact hc

/-- C8 amended witness: the three clauses at the fresh service state and the
identifiers `""`, `q`, and `" "`. -/
theorem C8_cache_reads_amended_witness :
    (canEdit initialService "" = false ∧ canDelete initialService "" = false) ∧
    (canEdit initialService "q" = false ∧
      canDelete initialService "q" = false) ∧
    canEdit initialService " " = false ∧
    canDelete initialService " " = false :=
  ⟨C8_cache_reads_amended.1 initialService,
    C8_cache_reads_amended.2.1 initialService "q" Reachable.init rfl,
    C8_cache_reads_amended.2.2.1 initialService " " (by decide) rfl,
    C8_cache_reads_amended.2.2.2 initialService " " (by decide) rfl⟩

/-- C9: `isStale` compares `now - lastFetched` against the fixed 5-minute
TTL: it is `true` in any state that has never seen a successful refresh
(timestamp 0, for any real epoch instant beyond the TTL), `false` at the
instant a successful refresh commits, and `true` again once more than the TTL
has elapsed since that refresh. -/
theorem C9_staleness :
    CACHE_TTL_MS = 5 * 60 * 1000 ∧
    (∀ (s : UserServiceState) (now : Int), s.lastFetched = 0 →
      now > CACHE_TTL_MS → isStale s now = true) ∧
    (∀ (s : UserServiceState) (r : UserAccountResponse) (now : Int),
      isStale (resolveFetch s (some r) now).1 now = false) ∧
    (∀ (s : UserServiceState) (r : UserAccountResponse) (tf now : Int),
      now - tf > CACHE_TTL_MS →
      isStale (resolveFetch s (some r) tf).1 now = true) := by
  refine ⟨rfl, fun s now h0 hgt => ?_, fun s r now => ?_,
    fun s r tf now hgt => ?_⟩
  · simp only [isStale, h0, decide_eq_true_eq]
    omega
  · have h1 : (resolveFetch s (some r) now).1.lastFetched = now := rfl
    simp only [isStale, h1, CACHE_TTL_MS, decide_eq_false_iff_not]
    omega
  · have h1 : (resolveFetch s (some r) tf).1.lastFetched = tf := rfl
    simp only [isStale, h1, decide_eq_true_eq]
    omega

/-- C9 witness: the staleness triple at concrete instants: never-refreshed at
epoch instant 300001, freshly refreshed at instant 5, and stale again at
instant 300006. -/
theorem C9_staleness_witness :
    CACHE_TTL_MS = 5 * 60 * 1000 ∧
    isStale initialService 300001 = true ∧
    isStale (resolveFetch initialService
      (some ⟨some "u", some "u@example.com", none, some false, none⟩)
        5).1 5 = false ∧
    isStale (resolveFetch initialService
      (some ⟨some "u", some "u@example.com", none, some false, none⟩)
        5).1 300006 = true :=
  ⟨C9_staleness.1,
    C9_staleness.2.1 initialService 300001 rfl (by decide),
    C9_staleness.2.2.1 initialService
      ⟨some "u", some "u@example.com", none, some false, none⟩ 5,
    C9_staleness.2.2.2 initialService
      ⟨some "u", some "u@example.com", none, some false, none⟩ 5 300006
      (by decide)⟩

/-- C10 counterexample: a fetch that was in flight when `clear()` ran does
repopulate the cache when it later resolves. Start a refresh from the fresh
service, clear, then let the fetch resolve successfully with editable id
`x`: afterwards `canEdit "x"` is `true` and the snapshot is non-null, even
though no `refresh()` was initiated after the clear. -/
theorem C10_clear_inflight_cex :
    canEdit (resolveFetch (clear (refresh initialService).1)
      (some ⟨some "u", some "u@example.com", none, some false,
        some ⟨some ["x"], some ["x"]⟩⟩) 0).1 "x" = true ∧
    (resolveFetch (clear (refresh initialService).1)
      (some ⟨some "u", some "u@example.com", none, some false,
        some ⟨some ["x"], some ["x"]⟩⟩) 0).1.userAccount ≠ none := by decide

/-- C10 (amended): after `clear()` the snapshot is null and every
`canEdit`/`canDelete` answer is `false`; those answers stay `false` only
until some fetch resolves successfully — including a fetch already in flight
when `clear()` ran, which repopulates the snapshot and the sets (the closure
carries no generation check). -/
theorem C10_clear_amended :
    (∀ s : UserServiceState, (clear s).userAccount = none ∧
      ∀ id, canEdit (clear s) id = false ∧ canDelete (clear s) id = false) ∧
    (∀ (s : UserServiceState) (r : UserAccountResponse) (now : Int),
      ((resolveFetch (clear s) (some r) now).1).userAccount =
        some (normalizeAccount r) ∧
      (resolveFetch (clear s) (some r) now).1.editableIds =
        (normalizeAccount r).permissions.can_edit_ontologies ∧
      (resolveFetch (clear s) (some r) now).1.deletableIds =
        (normalizeAccount r).permissions.can_delete_ontologies) := by
  constructor
  · intro s
    refine ⟨rfl, fun id => ?_⟩
    by_cases hid : id = ""
    · constructor <;> simp [canEdit, canDelete, hid]
    · constructor <;> simp [canEdit, canDelete, clear, hid]
  · intro s r now
    exact ⟨rfl, rfl, rfl⟩

end OntologyMarketplace
